import Mathlib

/-!
Shallow embedding of the spectral-analysis engine of `src/FreqWindow.cpp`
(class `SpectrumAnalyst`): `Calculate`, `GetProcessedSize`,
`GetProcessedValue`, `FindPeak`, `CubicInterpolate`, `CubicMaximize`.

Numeric values are modelled by the rationals (exact arithmetic in place of
IEEE float).  The external collaborators that are not part of the sources
(the FFT/window-function kernels declared in `FFT.h` and the libm
transcendental functions) are modelled, following section 6 of the spec, as
black-box parameters collected in a `Kernels` structure.
-/

/-- `mProcessed[i]` for a `Nat` index: C++ reads model arrays through this
total lookup (0 outside the populated range, which faithful runs never hit). -/
def lget (xs : List ℚ) (i : Nat) : ℚ := xs.getD i 0

/-- Array lookup at a C++ `int` index.  A negative index is out of bounds in
the C++ code (undefined behaviour); the model returns 0 there, and all
theorems keep indices nonnegative. -/
def lgetI (xs : List ℚ) (i : Int) : ℚ := if 0 ≤ i then lget xs i.toNat else 0

/-- C++ `(int)` conversion of a floating value: truncation toward zero. -/
def cTrunc (q : ℚ) : Int := if q < 0 then -(Int.floor (-q)) else Int.floor q

/-- `if (x < 0.0) x = 0.0` -/
def clipZero (x : ℚ) : ℚ := if x < 0 then 0 else x

/-- One step of the min/max scan used by `Calculate`:
`if (v > mYMax) mYMax = v; else if (v < mYMin) mYMin = v;` -/
def minmaxStep (mm : ℚ × ℚ) (v : ℚ) : ℚ × ℚ :=
  if v > mm.2 then (mm.1, v) else if v < mm.1 then (v, mm.2) else mm

/-- Minimum of a list of rationals (0 for the empty list, which no theorem
uses). -/
def listMinD (l : List ℚ) : ℚ := (l.min?).getD 0

/-- Maximum of a list of rationals (0 for the empty list). -/
def listMaxD (l : List ℚ) : ℚ := (l.max?).getD 0

/-- A model instance of the libm square root used by the concrete runs in
this file: a finite table that is exact on every discriminant value those
runs query it at (the accompanying theorems check the exactness where it
matters). -/
def sqrtQ (q : ℚ) : ℚ :=
  if q = 225 / 4 then 15 / 2 else if q = 36 then 6 else if q = 900 then 30 else 0

/-- External collaborators of the engine (spec section 6), consumed as black
boxes: the window-function catalog, the transform kernels of `FFT.h`
(`PowerSpectrum`, `RealFFT`, `InverseRealFFT`) and the libm functions the
engine calls.  `windowCoeffs wf n` is the coefficient buffer produced by
applying window function `wf` to an all-ones buffer of length `n`, i.e. the
result of `WindowFunc(windowFunc, mWindowSize, win)` after `win` is filled
with 1.0. -/
structure Kernels where
  numWindowFuncs : Int
  windowCoeffs : Int → Nat → List ℚ
  powerSpectrum : List ℚ → List ℚ
  rfftRe : List ℚ → List ℚ
  rfftIm : List ℚ → List ℚ
  irfft : List ℚ → List ℚ
  sqrtf : ℚ → ℚ
  cbrtf : ℚ → ℚ
  logf : ℚ → ℚ
  log10f : ℚ → ℚ

/-- The engine state: `mProcessed`, `mRate`, `mWindowSize`, `mAlg`.  The
algorithm tag is the C++ enum value: Spectrum = 0, Autocorrelation = 1,
CubeRootAutocorrelation = 2, EnhancedAutocorrelation = 3, Cepstrum = 4,
NumAlgorithms = 5. -/
structure AnalystState where
  mProcessed : List ℚ
  mRate : ℚ
  mWindowSize : Nat
  mAlg : Int

/-- The state built by the constructor `SpectrumAnalyst::SpectrumAnalyst()`:
`mAlg(Spectrum), mRate(0.0), mWindowSize(0)` and an empty `mProcessed`. -/
def initialState : AnalystState := ⟨[], 0, 0, 0⟩

/-- Result of a `Calculate` call: the new engine state and, on success, the
pair written through `pYMin` / `pYMax` (`none` when `Calculate` returns
`false`, in which case the output floats are never written). -/
structure CalcResult where
  state : AnalystState
  yRange : Option (ℚ × ℚ)

/-- `int GetProcessedSize() const: return mProcessed.size() / 2;` -/
def GetProcessedSize (st : AnalystState) : Nat := st.mProcessed.length / 2

/-- Coefficient `a` of the fitted cubic: `a = y0 / -6.0 + y1 / 2.0 - y2 / 2.0 + y3 / 6.0`. -/
def cubicCoeffA (y0 y1 y2 y3 : ℚ) : ℚ := y0 / (-6) + y1 / 2 - y2 / 2 + y3 / 6

/-- Coefficient `b` of the fitted cubic: `b = y0 - 5.0 * y1 / 2.0 + 2.0 * y2 - y3 / 2.0`. -/
def cubicCoeffB (y0 y1 y2 y3 : ℚ) : ℚ := y0 - 5 * y1 / 2 + 2 * y2 - y3 / 2

/-- Coefficient `c` of the fitted cubic: `c = -11.0 * y0 / 6.0 + 3.0 * y1 - 3.0 * y2 / 2.0 + y3 / 3.0`. -/
def cubicCoeffC (y0 y1 y2 y3 : ℚ) : ℚ := -11 * y0 / 6 + 3 * y1 - 3 * y2 / 2 + y3 / 3

/-- `float SpectrumAnalyst::CubicInterpolate(y0, y1, y2, y3, x)`. -/
def CubicInterpolate (y0 y1 y2 y3 x : ℚ) : ℚ :=
  let a := cubicCoeffA y0 y1 y2 y3
  let b := cubicCoeffB y0 y1 y2 y3
  let c := cubicCoeffC y0 y1 y2 y3
  let d := y0
  a * (x * x * x) + b * (x * x) + c * x + d

/-- The discriminant `db * db - 4 * da * dc` of the derivative quadratic
computed inside `CubicMaximize`, with `da = 3a`, `db = 2b`, `dc = c`. -/
def cubicDisc (y0 y1 y2 y3 : ℚ) : ℚ :=
  let da := 3 * cubicCoeffA y0 y1 y2 y3
  let db := 2 * cubicCoeffB y0 y1 y2 y3
  let dc := cubicCoeffC y0 y1 y2 y3
  db * db - 4 * da * dc

/-- `float SpectrumAnalyst::CubicMaximize(y0, y1, y2, y3, float *max)`.
Returns the position together with `some` of the value written through
`max`; the sentinel branch (`discriminant < 0.0`, `return -1.0`) never
writes the value, hence `none`.  The square root is the external libm call,
a `sqrtf` parameter here. -/
def CubicMaximize (sqrtf : ℚ → ℚ) (y0 y1 y2 y3 : ℚ) : ℚ × Option ℚ :=
  let a := cubicCoeffA y0 y1 y2 y3
  let b := cubicCoeffB y0 y1 y2 y3
  let c := cubicCoeffC y0 y1 y2 y3
  let d := y0
  let da := 3 * a
  let db := 2 * b
  let discriminant := db * db - 4 * da * c
  if discriminant < 0 then (-1, none)
  else
    let x1 := (-db + sqrtf discriminant) / (2 * da)
    let x2 := (-db - sqrtf discriminant) / (2 * da)
    let dda := 2 * da
    let ddb := db
    if dda * x1 + ddb < 0 then
      (x1, some (a * x1 * x1 * x1 + b * x1 * x1 + c * x1 + d))
    else
      (x2, some (a * x2 * x2 * x2 + b * x2 * x2 + c * x2 + d))

/-- The coefficient buffer `win` of `Calculate`: filled with 1.0 and then
passed to `WindowFunc(windowFunc, mWindowSize, win.get())`. -/
def winCoeffs (K : Kernels) (windowFunc : Int) (windowSize : Nat) : List ℚ :=
  K.windowCoeffs windowFunc windowSize

/-- `wss` before rescaling: the sum of the window coefficients
(`for i < mWindowSize: wss += win[i]`). -/
def windowSum (K : Kernels) (windowFunc : Int) (windowSize : Nat) : ℚ :=
  ((List.range windowSize).map (fun i => lget (winCoeffs K windowFunc windowSize) i)).sum

/-- `if (wss > 0) wss = 4.0 / (wss * wss); else wss = 1.0;` -/
def wssOf (K : Kernels) (windowFunc : Int) (windowSize : Nat) : ℚ :=
  let wss := windowSum K windowFunc windowSize
  if wss > 0 then 4 / (wss * wss) else 1

/-- The windowed frame at offset `start`:
`for i < mWindowSize: in[i] = win[i] * data[start + i]`. -/
def frameAt (K : Kernels) (windowFunc : Int) (windowSize : Nat) (data : List ℚ)
    (start : Nat) : List ℚ :=
  (List.range windowSize).map
    (fun i => lget (winCoeffs K windowFunc windowSize) i * lget data (start + i))

/-- The offsets visited by the accumulation loop
`size_t start = 0; while (start + mWindowSize <= dataLen) start += half;`,
written with explicit fuel.  The loop advances by `half ≥ 16` on every
validated call, so `dataLen + 1` rounds of fuel are never exhausted. -/
def windowStartsAux (windowSize halfSize dataLen : Nat) : Nat → Nat → List Nat
  | _, 0 => []
  | start, Nat.succ fuel =>
    if start + windowSize ≤ dataLen then
      start :: windowStartsAux windowSize halfSize dataLen (start + halfSize) fuel
    else []

/-- All window start offsets of one `Calculate` call. -/
def windowStarts (windowSize dataLen : Nat) : List Nat :=
  windowStartsAux windowSize (windowSize / 2) dataLen 0 (dataLen + 1)

/-- The `windows` counter: one increment per loop iteration. -/
def windowCount (windowSize dataLen : Nat) : Nat := (windowStarts windowSize dataLen).length

/-- The input of the Cepstrum inverse FFT: per-bin log power with the
`minpower = 1e-20 * mWindowSize * mWindowSize` floor
(`if (power < minpower) in[i] = log(minpower); else in[i] = log(power);`). -/
def cepstrumLogList (K : Kernels) (windowSize : Nat) (fr : List ℚ) : List ℚ :=
  let re := K.rfftRe fr
  let im := K.rfftIm fr
  let minpower : ℚ := 1 / 10 ^ 20 * windowSize * windowSize
  (List.range windowSize).map (fun i =>
    let power := lget re i * lget re i + lget im i * lget im i
    if power < minpower then K.logf minpower else K.logf power)

/-- The per-window transform of the `switch (alg)` inside the loop: the
length-`windowSize` buffer whose first half is added into `mProcessed`. -/
def transformOf (K : Kernels) (alg : Int) (windowSize : Nat) (fr : List ℚ) : List ℚ :=
  if alg = 0 then
    -- Spectrum: PowerSpectrum(mWindowSize, in, out)
    K.powerSpectrum fr
  else if alg = 4 then
    -- Cepstrum: RealFFT, floored log power, InverseRealFFT(.., NULL, out)
    K.irfft (cepstrumLogList K windowSize fr)
  else
    -- Autocorrelation family: RealFFT, power, sqrt or cube root, RealFFT again
    let re := K.rfftRe fr
    let im := K.rfftIm fr
    let power := (List.range windowSize).map
      (fun i => lget re i * lget re i + lget im i * lget im i)
    let compressed := if alg = 1 then power.map K.sqrtf else power.map K.cbrtf
    K.rfftRe compressed

/-- Bin `i` of the accumulated first half of `mProcessed` after the loop:
`mProcessed[i] += out[i]` summed over all window positions. -/
def accumBin (K : Kernels) (alg windowFunc : Int) (windowSize : Nat) (data : List ℚ)
    (i : Nat) : ℚ :=
  ((windowStarts windowSize data.length).map
    (fun s => lget (transformOf K alg windowSize (frameAt K windowFunc windowSize data s)) i)).sum

/-- The accumulated first half of `mProcessed` (bins `0 ≤ i < windowSize/2`). -/
def accumHalf (K : Kernels) (alg windowFunc : Int) (windowSize : Nat) (data : List ℚ) : List ℚ :=
  (List.range (windowSize / 2)).map (accumBin K alg windowFunc windowSize data)

/-- Spectrum post-processing: `mProcessed[i] = 10 * log10(mProcessed[i] * scale)`
with `scale = wss / windows`. -/
def postSpectrum (K : Kernels) (wss : ℚ) (windows : Nat) (acc : List ℚ) : List ℚ :=
  acc.map (fun x => 10 * K.log10f (x * (wss / windows)))

/-- EnhancedAutocorrelation post-processing: divide by `windows`, clip at
zero (keeping the clipped copy in `out`), subtract the linearly interpolated
time-doubled copy, clip at zero again. -/
def postEnhanced (windows : Nat) (acc : List ℚ) : List ℚ :=
  let divd := acc.map (fun x => x / (windows : ℚ))
  let clip1 := divd.map clipZero
  let sub := (List.range acc.length).map (fun i =>
    lget clip1 i -
      (if i % 2 = 0 then lget clip1 (i / 2)
       else (lget clip1 (i / 2) + lget clip1 (i / 2 + 1)) / 2))
  sub.map clipZero

/-- The post-processing dispatch at the end of `Calculate` (the second
`switch (alg)`): produces the final first half of `mProcessed` together
with `(mYMin, mYMax)`. -/
def postProcess (K : Kernels) (alg : Int) (half : Nat) (wss : ℚ) (windows : Nat)
    (acc : List ℚ) : List ℚ × ℚ × ℚ :=
  if alg = 0 then
    -- Spectrum: convert to decibels, min/max from the 1000000 sentinels
    let p := postSpectrum K wss windows acc
    let mm := p.foldl minmaxStep (1000000, -1000000)
    (p, mm.1, mm.2)
  else if alg = 3 then
    -- EnhancedAutocorrelation: peak pruning, then min/max from element 0
    let p := postEnhanced windows acc
    let mm := (p.drop 1).foldl minmaxStep (lget p 0, lget p 0)
    (p, mm.1, mm.2)
  else if alg = 4 then
    -- Cepstrum: divide by windows, min/max ignoring 4 bins at either end
    let p := acc.map (fun x => x / (windows : ℚ))
    let mm := ((p.drop 5).take (half - 9)).foldl minmaxStep (lget p 4, lget p 4)
    (p, mm.1, mm.2)
  else
    -- Autocorrelation and CubeRootAutocorrelation
    let p := acc.map (fun x => x / (windows : ℚ))
    let mm := (p.drop 1).foldl minmaxStep (lget p 0, lget p 0)
    (p, mm.1, mm.2)

/-- `bool SpectrumAnalyst::Calculate(alg, windowFunc, windowSize, rate, data,
dataLen, pYMin, pYMax, progress)`.  The progress gauge is cosmetic and not
modelled.  `st` is the state before the call; `Calculate` first wipes
`mProcessed`, `mRate` and `mWindowSize` (`mAlg` keeps its previous value on a
failed call) and validates, then recomputes everything. -/
def Calculate (K : Kernels) (st : AnalystState) (alg windowFunc : Int)
    (windowSize : Nat) (rate : ℚ) (data : List ℚ) : CalcResult :=
  let wiped : AnalystState := ⟨[], 0, 0, st.mAlg⟩
  if ¬(32 ≤ windowSize ∧ windowSize ≤ 65536 ∧
        0 ≤ alg ∧ alg < 5 ∧
        0 ≤ windowFunc ∧ windowFunc < K.numWindowFuncs) then
    ⟨wiped, none⟩
  else if data.length < windowSize then
    ⟨wiped, none⟩
  else
    let pm := postProcess K alg (windowSize / 2) (wssOf K windowFunc windowSize)
      (windowCount windowSize data.length) (accumHalf K alg windowFunc windowSize data)
    ⟨⟨pm.1 ++ List.replicate (windowSize - windowSize / 2) 0, rate, windowSize, alg⟩,
      some (pm.2.1, pm.2.2)⟩

/-- The frequency/lag to curve-index mapping used by `GetProcessedValue`:
`bin = freq * mWindowSize / mRate` for Spectrum, `bin = freq * mRate`
otherwise. -/
def indexMap (st : AnalystState) (freq : ℚ) : ℚ :=
  if st.mAlg = 0 then freq * st.mWindowSize / st.mRate else freq * st.mRate

/-- The integration loop of `GetProcessedValue`:
`bin0 = 1 + (int)bin0; while (bin0 < (int)bin1) value += mProcessed[(int)bin0], bin0 += 1;`.
After the assignment the loop variable holds integers, modelled by `b0`. -/
def gpvSum (P : List ℚ) (t1 : Int) (b0 : Int) : ℚ :=
  if b0 < t1 then lgetI P b0 + gpvSum P t1 (b0 + 1) else 0
termination_by (t1 - b0).toNat
decreasing_by
  simp_wf
  omega

/-- `float SpectrumAnalyst::GetProcessedValue(freq0, freq1) const`. -/
def GetProcessedValue (st : AnalystState) (freq0 freq1 : ℚ) : ℚ :=
  let size : Int := GetProcessedSize st
  let bin0 := indexMap st freq0
  let bin1 := indexMap st freq1
  let binwidth := bin1 - bin0
  if binwidth < 1 then
    -- interpolate
    let binmid := (bin0 + bin1) / 2
    let ibin0 := cTrunc binmid - 1
    let ibin1 := if ibin0 < 1 then 1 else ibin0
    let ibin := if ibin1 ≥ size - 3 then max 0 (size - 4) else ibin1
    CubicInterpolate (lgetI st.mProcessed ibin) (lgetI st.mProcessed (ibin + 1))
      (lgetI st.mProcessed (ibin + 2)) (lgetI st.mProcessed (ibin + 3))
      (binmid - (ibin : ℚ))
  else
    -- integrate, dividing by binwidth
    let b0 := if bin0 < 0 then 0 else bin0
    let b1 := if bin1 ≥ (size : ℚ) then (size : ℚ) - 1 else bin1
    let t0 := cTrunc b0
    let t1 := cTrunc b1
    let first := if t1 > t0 then lgetI st.mProcessed t0 * ((t0 : ℚ) + 1 - b0) else 0
    let middle := gpvSum st.mProcessed t1 (1 + t0)
    let last := lgetI st.mProcessed t1 * (b1 - (t1 : ℚ))
    (first + middle + last) / binwidth

/-- The candidate-refinement block of `FindPeak`: cubic maximization over the
four samples starting at `leftbin = bin - 2`, then conversion of the refined
index to a frequency (Spectrum) or lag (other algorithms) position.  Returns
the converted position and `valueAtMax` (which stays at its initial 0.0 when
`CubicMaximize` takes its sentinel branch and never writes it). -/
def refineCand (sqrtf : ℚ → ℚ) (P : List ℚ) (isSpectrum : Bool) (rate : ℚ)
    (windowSize : Nat) (bin : Int) : ℚ × ℚ :=
  let leftbin := bin - 2
  let r := CubicMaximize sqrtf (lgetI P leftbin) (lgetI P (leftbin + 1))
    (lgetI P (leftbin + 2)) (lgetI P (leftbin + 3))
  let m : ℚ := (leftbin : ℚ) + r.1
  (if isSpectrum then m * rate / windowSize else m / rate, r.2.getD 0)

/-- The scan loop of `FindPeak` (`for (int bin = 3; bin < GetProcessedSize() - 1; bin++)`),
written with the iteration count as explicit structural fuel: `FindPeak`
passes exactly `size - 1 - 3` rounds, `bin` starting at 3.  Carries the
loop state `(up, bestpeak, bestdist, bestValue)`.  A candidate is detected
on a rising-to-falling transition (`!nowUp && up`); an improving candidate
(distance strictly below `bestdist`) replaces the best triple, and the
loop breaks when an improving candidate lies above `xPos`. -/
def findPeakLoop (sqrtf : ℚ → ℚ) (P : List ℚ) (isSpectrum : Bool) (rate : ℚ)
    (windowSize : Nat) (xPos : ℚ) : Nat → Int → Bool → ℚ → ℚ → ℚ → ℚ × ℚ
  | 0, _, _, bp, _, bv => (bp, bv)
  | fuel + 1, bin, up, bp, bd, bv =>
    if lgetI P bin > lgetI P (bin - 1) then
      -- nowUp: no candidate this iteration
      findPeakLoop sqrtf P isSpectrum rate windowSize xPos fuel (bin + 1) true bp bd bv
    else if up then
      -- local maximum: refine, compare, possibly break
      let c := refineCand sqrtf P isSpectrum rate windowSize bin
      if |c.1 - xPos| < bd then
        if c.1 > xPos then (c.1, c.2)
        else findPeakLoop sqrtf P isSpectrum rate windowSize xPos fuel (bin + 1) false
          c.1 |c.1 - xPos| c.2
      else findPeakLoop sqrtf P isSpectrum rate windowSize xPos fuel (bin + 1) false bp bd bv
    else findPeakLoop sqrtf P isSpectrum rate windowSize xPos fuel (bin + 1) false bp bd bv

/-- `float SpectrumAnalyst::FindPeak(float xPos, float *pY) const`.  Returns
`(bestpeak, bestValue)`, both initialized to zero and only updated when the
scan (guarded by `GetProcessedSize() > 1`) keeps a candidate. -/
def FindPeak (sqrtf : ℚ → ℚ) (st : AnalystState) (xPos : ℚ) : ℚ × ℚ :=
  let size : Int := GetProcessedSize st
  if size > 1 then
    findPeakLoop sqrtf st.mProcessed (decide (st.mAlg = 0)) st.mRate st.mWindowSize xPos
      (size - 1 - 3).toNat 3 (decide (lget st.mProcessed 1 > lget st.mProcessed 0)) 0 1000000 0
  else (0, 0)

/-- Modelled from the claim wording of C3: the integral of the
piecewise-constant curve (bin `i` covering the index interval from `i` to
`i + 1`) over a fractional index range: the first and last partially covered
bins weighted by their fractional coverage, full bins contributing their
full value; 0 for an empty or inverted range. -/
def specIntegral (P : List ℚ) (lo hi : ℚ) : ℚ :=
  if hi ≤ lo then 0
  else if Int.floor lo = Int.floor hi then lgetI P (Int.floor lo) * (hi - lo)
  else lgetI P (Int.floor lo) * ((Int.floor lo : ℚ) + 1 - lo) +
    gpvSum P (Int.floor hi) (Int.floor lo + 1) +
    lgetI P (Int.floor hi) * (hi - (Int.floor hi : ℚ))

/-- Modelled from the claim wording of C3 (the claim as stated): cubic
interpolation at the midpoint with the base index clamped into
`[1, size - 4]` when the span is narrower than one bin, otherwise the
integral over the index range clamped to `[0, size - 1]`, divided by the
index-span width. -/
def GetProcessedValueClaim (st : AnalystState) (freq0 freq1 : ℚ) : ℚ :=
  let size : Int := GetProcessedSize st
  let bin0 := indexMap st freq0
  let bin1 := indexMap st freq1
  let binwidth := bin1 - bin0
  if binwidth < 1 then
    let binmid := (bin0 + bin1) / 2
    let ibin := max 1 (min (cTrunc binmid - 1) (size - 4))
    CubicInterpolate (lgetI st.mProcessed ibin) (lgetI st.mProcessed (ibin + 1))
      (lgetI st.mProcessed (ibin + 2)) (lgetI st.mProcessed (ibin + 3))
      (binmid - (ibin : ℚ))
  else
    specIntegral st.mProcessed (max bin0 0) (min bin1 ((size : ℚ) - 1)) / binwidth

/-- The claim of C3 amended at its one false point: the upper index endpoint
is replaced by `size - 1` only when it reaches `size` or beyond; an endpoint
inside the last bin (between `size - 1` and `size`) is integrated as is. -/
def GetProcessedValueAmended (st : AnalystState) (freq0 freq1 : ℚ) : ℚ :=
  let size : Int := GetProcessedSize st
  let bin0 := indexMap st freq0
  let bin1 := indexMap st freq1
  let binwidth := bin1 - bin0
  if binwidth < 1 then
    let binmid := (bin0 + bin1) / 2
    let ibin := max 1 (min (cTrunc binmid - 1) (size - 4))
    CubicInterpolate (lgetI st.mProcessed ibin) (lgetI st.mProcessed (ibin + 1))
      (lgetI st.mProcessed (ibin + 2)) (lgetI st.mProcessed (ibin + 3))
      (binmid - (ibin : ℚ))
  else
    specIntegral st.mProcessed (max bin0 0)
      (if bin1 ≥ (size : ℚ) then (size : ℚ) - 1 else bin1) / binwidth

/-- The bins at which the scan of `FindPeak` detects a rising-to-falling
transition, in scan order, starting from `bin` with incoming flag `up`,
with the same structural fuel as `findPeakLoop`. -/
def peakCandAux (P : List ℚ) : Nat → Int → Bool → List Int
  | 0, _, _ => []
  | fuel + 1, bin, up =>
    if lgetI P bin > lgetI P (bin - 1) then peakCandAux P fuel (bin + 1) true
    else if up then bin :: peakCandAux P fuel (bin + 1) false
    else peakCandAux P fuel (bin + 1) false

/-- All bins at which `FindPeak` detects a local maximum, in scan order. -/
def peakCandidates (P : List ℚ) (size : Int) : List Int :=
  if size > 1 then peakCandAux P (size - 1 - 3).toNat 3 (decide (lget P 1 > lget P 0)) else []

/-- The selection rule `FindPeak` actually applies to the refined candidate
list: keep a candidate only when its distance to `xPos` improves on the
running best distance, and stop at the first improving candidate whose
position exceeds `xPos`. -/
def selectPeak (xPos : ℚ) : List (ℚ × ℚ) → ℚ → ℚ → ℚ → ℚ × ℚ
  | [], bp, _, bv => (bp, bv)
  | c :: rest, bp, bd, bv =>
    if |c.1 - xPos| < bd then
      if c.1 > xPos then (c.1, c.2)
      else selectPeak xPos rest c.1 |c.1 - xPos| c.2
    else selectPeak xPos rest bp bd bv

/-- Modelled from the claim wording of C4: the candidates up to and
including the first one whose converted position exceeds the query
position. -/
def takeUntilOvershoot (xPos : ℚ) : List (ℚ × ℚ) → List (ℚ × ℚ)
  | [] => []
  | c :: rest => if c.1 > xPos then [c] else c :: takeUntilOvershoot xPos rest

/-- Modelled from the claim wording of C4 (the claim as stated): among the
candidates up to and including the first overshoot, return the one with the
smallest absolute distance to the query position (the first such on ties),
or the zero pair when there is no candidate. -/
def findPeakClaim (sqrtf : ℚ → ℚ) (st : AnalystState) (xPos : ℚ) : ℚ × ℚ :=
  let size : Int := GetProcessedSize st
  let cands := (peakCandidates st.mProcessed size).map
    (refineCand sqrtf st.mProcessed (decide (st.mAlg = 0)) st.mRate st.mWindowSize)
  match takeUntilOvershoot xPos cands with
  | [] => (0, 0)
  | c :: rest => rest.foldl (fun best d => if |d.1 - xPos| < |best.1 - xPos| then d else best) c

theorem lget_range_map (f : Nat → ℚ) (n i : Nat) :
    lget ((List.range n).map f) i = if i < n then f i else 0 := by
  unfold lget
  rcases Nat.lt_or_ge i n with h | h
  · rw [List.getD_eq_getElem _ _ (by simpa using h)]
    simp [h]
  · rw [List.getD_eq_default _ _ (by simpa using h)]
    simp [Nat.not_lt_of_ge h]

theorem lget_append_left (l r : List ℚ) (i : Nat) (h : i < l.length) :
    lget (l ++ r) i = lget l i := by
  unfold lget
  rw [List.getD_eq_getElem _ _ (by simp; omega), List.getD_eq_getElem _ _ h]
  exact List.getElem_append_left h

theorem lget_map_of_lt (f : ℚ → ℚ) (l : List ℚ) (i : Nat) (h : i < l.length) :
    lget (l.map f) i = f (lget l i) := by
  unfold lget
  rw [List.getD_eq_getElem _ _ (by simpa using h), List.getD_eq_getElem _ _ h]
  simp

theorem foldl_minmaxStep (l : List ℚ) (mn mx : ℚ) (h : mn ≤ mx) :
    l.foldl minmaxStep (mn, mx) = (l.foldl min mn, l.foldl max mx) := by
  induction l generalizing mn mx with
  | nil => rfl
  | cons a as ih =>
    simp only [List.foldl_cons]
    by_cases h1 : a > mx
    · rw [show minmaxStep (mn, mx) a = (mn, a) by simp [minmaxStep, h1],
        min_eq_left (le_of_lt (lt_of_le_of_lt h h1)), max_eq_right (le_of_lt h1)]
      exact ih _ _ (le_of_lt (lt_of_le_of_lt h h1))
    · by_cases h2 : a < mn
      · rw [show minmaxStep (mn, mx) a = (a, mx) by simp [minmaxStep, h1, h2],
          min_eq_right (le_of_lt h2), max_eq_left (not_lt.1 h1)]
        exact ih _ _ (le_of_lt (lt_of_lt_of_le h2 h))
      · rw [show minmaxStep (mn, mx) a = (mn, mx) by simp [minmaxStep, h1, h2],
          min_eq_left (not_lt.1 h2), max_eq_left (not_lt.1 h1)]
        exact ih _ _ h

theorem foldl_minmaxStep_head (a : ℚ) (as : List ℚ) :
    as.foldl minmaxStep (a, a) = (listMinD (a :: as), listMaxD (a :: as)) := by
  rw [foldl_minmaxStep as a a le_rfl]
  simp only [listMinD, listMaxD]
  rw [show (a :: as).min? = some (as.foldl min a) from rfl,
    show (a :: as).max? = some (as.foldl max a) from rfl]
  rfl

theorem gpvSum_of_le (P : List ℚ) (t1 b0 : Int) (h : t1 ≤ b0) : gpvSum P t1 b0 = 0 := by
  rw [gpvSum, if_neg (by omega)]

/-- Claim C10: on four equal samples the fitted cubic has leading
coefficient a = 0, the discriminant of the derivative quadratic is not
negative — so the sentinel branch of `CubicMaximize` is not taken and a
value is produced — and the denominator `2 * (3a)` of the root computation
is zero: the division is performed with a zero divisor. -/
theorem C10_division_by_zero (sqrtf : ℚ → ℚ) (y : ℚ) :
    cubicCoeffA y y y y = 0 ∧ ¬ cubicDisc y y y y < 0 ∧
    2 * (3 * cubicCoeffA y y y y) = 0 ∧
    (CubicMaximize sqrtf y y y y).2.isSome = true := by
  have hA : cubicCoeffA y y y y = 0 := by unfold cubicCoeffA; ring
  have hB : cubicCoeffB y y y y = 0 := by unfold cubicCoeffB; ring
  have hd : cubicDisc y y y y = 0 := by
    unfold cubicDisc
    rw [hA, hB]
    ring
  refine ⟨hA, by rw [hd]; exact lt_irrefl 0, by rw [hA]; ring, ?_⟩
  unfold CubicMaximize
  simp only [hA, hB]
  norm_num

/-- Claim C9, counterexample: on the samples (0, -2, 2, 18) — the cubic
x^3 - 3x sampled at 0..3, whose local maximum sits at x = -1 — the
discriminant is 36 (not negative, and the table square root is exact there),
yet `CubicMaximize` returns position -1.0: the value -1.0 is returned as a
genuine root position, so -1.0 is not returned *exactly* when the
discriminant is negative. -/
theorem C9_counterexample :
    (CubicMaximize sqrtQ 0 (-2) 2 18).1 = -1 ∧
    ¬ cubicDisc 0 (-2) 2 18 < 0 ∧
    sqrtQ (cubicDisc 0 (-2) 2 18) * sqrtQ (cubicDisc 0 (-2) 2 18) = cubicDisc 0 (-2) 2 18 ∧
    0 ≤ sqrtQ (cubicDisc 0 (-2) 2 18) := by
  have hd : cubicDisc 0 (-2) 2 18 = 36 := by
    norm_num [cubicDisc, cubicCoeffA, cubicCoeffB, cubicCoeffC]
  refine ⟨?_, by rw [hd]; norm_num, by rw [hd]; norm_num [sqrtQ], by rw [hd]; norm_num [sqrtQ]⟩
  norm_num [CubicMaximize, sqrtQ, cubicCoeffA, cubicCoeffB, cubicCoeffC]

/-- Helper for the amended C9: the smaller-root formula satisfies the
derivative quadratic and has second derivative -s, under exactness of s. -/
theorem quadRootAux (a b c s x : ℚ) (ha : a ≠ 0)
    (hs : s * s = 2 * b * (2 * b) - 4 * (3 * a) * c)
    (hx : x = (-(2 * b) - s) / (2 * (3 * a))) :
    3 * a * (x * x) + 2 * b * x + c = 0 ∧ 2 * (3 * a) * x + 2 * b = -s := by
  have h3 : (3 : ℚ) * a ≠ 0 := by
    intro h
    exact ha (by linarith)
  have h6 : (2 : ℚ) * (3 * a) ≠ 0 := mul_ne_zero two_ne_zero h3
  have hx2 : 2 * (3 * a) * x = -(2 * b) - s := by
    rw [hx, mul_comm]
    exact div_mul_cancel₀ _ h6
  have key : 6 * a * x = -(2 * b) - s := by linear_combination hx2
  have h36 : 36 * (a * a) * (x * x) = (-(2 * b) - s) * (-(2 * b) - s) := by
    rw [← key]
    ring
  have hmul : 12 * a * (3 * a * (x * x) + 2 * b * x + c) = 0 := by
    linear_combination h36 + 4 * b * key + hs
  refine ⟨?_, by linear_combination hx2⟩
  rcases mul_eq_zero.mp hmul with h | h
  · exact absurd (by linarith [mul_eq_zero.mp h] : a = 0) ha
  · exact h

/-- Claim C9 amended: `CubicMaximize` returns the sentinel pair (-1, no
value written) whenever the discriminant is negative; when the discriminant
is not negative — assuming the library square root is exact and the fitted
cubic is a genuine cubic (leading coefficient nonzero) — the returned
position is a root of the derivative quadratic whose second derivative
equals minus the square root of the discriminant, hence is strictly
negative (a true local maximum, not the minimum) whenever the discriminant
is strictly positive, and the returned value is the cubic evaluated there.
The position -1.0 can, however, also be returned as a genuine root, so
"-1.0 exactly when the discriminant is negative" does not hold. -/
theorem C9_maximize_amended (sqrtf : ℚ → ℚ) (y0 y1 y2 y3 : ℚ) :
    (cubicDisc y0 y1 y2 y3 < 0 → CubicMaximize sqrtf y0 y1 y2 y3 = (-1, none)) ∧
    (¬ cubicDisc y0 y1 y2 y3 < 0 →
      sqrtf (cubicDisc y0 y1 y2 y3) * sqrtf (cubicDisc y0 y1 y2 y3) = cubicDisc y0 y1 y2 y3 →
      0 ≤ sqrtf (cubicDisc y0 y1 y2 y3) →
      cubicCoeffA y0 y1 y2 y3 ≠ 0 →
      3 * cubicCoeffA y0 y1 y2 y3 * ((CubicMaximize sqrtf y0 y1 y2 y3).1 *
          (CubicMaximize sqrtf y0 y1 y2 y3).1) +
        2 * cubicCoeffB y0 y1 y2 y3 * (CubicMaximize sqrtf y0 y1 y2 y3).1 +
        cubicCoeffC y0 y1 y2 y3 = 0 ∧
      2 * (3 * cubicCoeffA y0 y1 y2 y3) * (CubicMaximize sqrtf y0 y1 y2 y3).1 +
        2 * cubicCoeffB y0 y1 y2 y3 = -(sqrtf (cubicDisc y0 y1 y2 y3)) ∧
      (0 < cubicDisc y0 y1 y2 y3 →
        2 * (3 * cubicCoeffA y0 y1 y2 y3) * (CubicMaximize sqrtf y0 y1 y2 y3).1 +
          2 * cubicCoeffB y0 y1 y2 y3 < 0) ∧
      (CubicMaximize sqrtf y0 y1 y2 y3).2 =
        some (CubicInterpolate y0 y1 y2 y3 (CubicMaximize sqrtf y0 y1 y2 y3).1)) := by
  constructor
  · intro hneg
    unfold CubicMaximize
    rw [if_pos (by simpa [cubicDisc] using hneg)]
  · intro hpos hsq hnn ha
    set a := cubicCoeffA y0 y1 y2 y3 with hadef
    set b := cubicCoeffB y0 y1 y2 y3 with hbdef
    set c := cubicCoeffC y0 y1 y2 y3 with hcdef
    have hdisc : cubicDisc y0 y1 y2 y3 = 2 * b * (2 * b) - 4 * (3 * a) * c := by
      simp [cubicDisc, hadef, hbdef, hcdef]
    set s := sqrtf (cubicDisc y0 y1 y2 y3) with hsdef
    have hda : (3 : ℚ) * a ≠ 0 := by
      intro hz
      exact ha (by linarith)
    have hbranch : ¬ (2 * (3 * a) * ((-(2 * b) + s) / (2 * (3 * a))) + 2 * b < 0) := by
      rw [show 2 * (3 * a) * ((-(2 * b) + s) / (2 * (3 * a))) = -(2 * b) + s by
        rw [mul_comm]
        exact div_mul_cancel₀ _ (mul_ne_zero two_ne_zero hda)]
      simpa using hnn
    have hres : CubicMaximize sqrtf y0 y1 y2 y3 =
        ((-(2 * b) - s) / (2 * (3 * a)),
          some (a * ((-(2 * b) - s) / (2 * (3 * a))) * ((-(2 * b) - s) / (2 * (3 * a))) *
              ((-(2 * b) - s) / (2 * (3 * a))) +
            b * ((-(2 * b) - s) / (2 * (3 * a))) * ((-(2 * b) - s) / (2 * (3 * a))) +
            c * ((-(2 * b) - s) / (2 * (3 * a))) + y0)) := by
      unfold CubicMaximize
      rw [if_neg (by rw [← hadef, ← hbdef, ← hcdef, ← hdisc]; exact hpos)]
      simp only [← hadef, ← hbdef, ← hcdef, ← hdisc, ← hsdef]
      rw [if_neg hbranch]
    have hsq2 : s * s = 2 * b * (2 * b) - 4 * (3 * a) * c := by rw [← hdisc]; exact hsq
    have hkey := quadRootAux a b c s ((-(2 * b) - s) / (2 * (3 * a))) ha hsq2 rfl
    rw [hres]
    refine ⟨hkey.1, hkey.2, ?_, ?_⟩
    · intro hgt
      rw [hkey.2]
      have hs0 : s ≠ 0 := by
        intro hz
        rw [hz] at hsq
        rw [← hsq] at hgt
        simp at hgt
      simp only [neg_neg, Left.neg_neg_iff]
      exact lt_of_le_of_ne hnn (Ne.symm hs0)
    · simp only [Option.some.injEq]
      unfold CubicInterpolate
      simp only [← hadef, ← hbdef, ← hcdef]
      ring

/-- Witness for the amended C9, applying it on a cubic with negative
discriminant (monotone data 0,1,2,4) and on the cubic
x^3 - 21/4 x^2 + 9/2 x + 5 sampled at 0..3 (discriminant 225/4, maximum at
x = 1/2). -/
theorem C9_maximize_amended_witness :
    CubicMaximize sqrtQ 0 1 2 4 = (-1, none) ∧
    (2 * (3 * cubicCoeffA 5 (21 / 4) 1 (-7 / 4)) * (CubicMaximize sqrtQ 5 (21 / 4) 1 (-7 / 4)).1 +
        2 * cubicCoeffB 5 (21 / 4) 1 (-7 / 4) = -(sqrtQ (cubicDisc 5 (21 / 4) 1 (-7 / 4))) ∧
      (CubicMaximize sqrtQ 5 (21 / 4) 1 (-7 / 4)).2 =
        some (CubicInterpolate 5 (21 / 4) 1 (-7 / 4) (CubicMaximize sqrtQ 5 (21 / 4) 1 (-7 / 4)).1)) := by
  constructor
  · exact (C9_maximize_amended sqrtQ 0 1 2 4).1
      (by norm_num [cubicDisc, cubicCoeffA, cubicCoeffB, cubicCoeffC])
  · have h := (C9_maximize_amended sqrtQ 5 (21 / 4) 1 (-7 / 4)).2
      (by norm_num [cubicDisc, cubicCoeffA, cubicCoeffB, cubicCoeffC])
      (by norm_num [cubicDisc, cubicCoeffA, cubicCoeffB, cubicCoeffC, sqrtQ])
      (by norm_num [cubicDisc, cubicCoeffA, cubicCoeffB, cubicCoeffC, sqrtQ])
      (by norm_num [cubicCoeffA])
    exact ⟨h.2.1, h.2.2.2⟩

/-- Claim C1: `Calculate` returns failure exactly when validation fails —
window size outside [32, 65536], an algorithm tag outside the five defined
variants, a window-function id outside the catalog, or fewer samples than
one window — and on every failing call the stored curve is left empty
(`GetProcessedSize` is 0) and the cached rate and window size are cleared
to 0, never left at a previous parameter combination. -/
theorem C1_validation_iff (K : Kernels) (st : AnalystState) (alg windowFunc : Int)
    (windowSize : Nat) (rate : ℚ) (data : List ℚ) :
    ((Calculate K st alg windowFunc windowSize rate data).yRange = none ↔
      (windowSize < 32 ∨ 65536 < windowSize ∨ alg < 0 ∨ 5 ≤ alg ∨
        windowFunc < 0 ∨ K.numWindowFuncs ≤ windowFunc ∨ data.length < windowSize)) ∧
    ((Calculate K st alg windowFunc windowSize rate data).yRange = none →
      (Calculate K st alg windowFunc windowSize rate data).state.mProcessed = [] ∧
      GetProcessedSize (Calculate K st alg windowFunc windowSize rate data).state = 0 ∧
      (Calculate K st alg windowFunc windowSize rate data).state.mRate = 0 ∧
      (Calculate K st alg windowFunc windowSize rate data).state.mWindowSize = 0) := by
  by_cases h1 : 32 ≤ windowSize ∧ windowSize ≤ 65536 ∧ 0 ≤ alg ∧ alg < 5 ∧
      0 ≤ windowFunc ∧ windowFunc < K.numWindowFuncs
  · by_cases h2 : data.length < windowSize
    · have hc : Calculate K st alg windowFunc windowSize rate data =
          ⟨⟨[], 0, 0, st.mAlg⟩, none⟩ := by
        unfold Calculate
        rw [if_neg (not_not_intro h1), if_pos h2]
      rw [hc]
      refine ⟨⟨fun _ => by omega, fun _ => rfl⟩,
        fun _ => ⟨rfl, by simp [GetProcessedSize], rfl, rfl⟩⟩
    · have hc : (Calculate K st alg windowFunc windowSize rate data).yRange ≠ none := by
        unfold Calculate
        rw [if_neg (not_not_intro h1), if_neg h2]
        simp
      refine ⟨⟨fun hn => absurd hn hc, fun hD => absurd hD (by omega)⟩,
        fun hn => absurd hn hc⟩
  · have hc : Calculate K st alg windowFunc windowSize rate data =
        ⟨⟨[], 0, 0, st.mAlg⟩, none⟩ := by
      unfold Calculate
      rw [if_pos h1]
    rw [hc]
    refine ⟨⟨fun _ => ?_, fun _ => rfl⟩,
      fun _ => ⟨rfl, by simp [GetProcessedSize], rfl, rfl⟩⟩
    by_contra hD
    push_neg at hD
    exact h1 ⟨by omega, by omega, by omega, by omega, by omega, by omega⟩

/-- Witness for C1: a window size of 16 fails validation and clears the
state; the conclusion is evaluated on that failing call. -/
theorem C1_validation_iff_witness :
    (Calculate ⟨1, fun _ n => List.replicate n 1, id, id, id, id, id, id, id, id⟩
        initialState 0 0 16 1 (List.replicate 64 0)).yRange = none ∧
    GetProcessedSize (Calculate ⟨1, fun _ n => List.replicate n 1, id, id, id, id, id, id, id, id⟩
        initialState 0 0 16 1 (List.replicate 64 0)).state = 0 := by
  have h := C1_validation_iff ⟨1, fun _ n => List.replicate n 1, id, id, id, id, id, id, id, id⟩
    initialState 0 0 16 1 (List.replicate 64 0)
  have hf := h.1.mpr (Or.inl (by norm_num))
  exact ⟨hf, (h.2 hf).2.1⟩

theorem accumHalf_length (K : Kernels) (alg windowFunc : Int) (windowSize : Nat)
    (data : List ℚ) : (accumHalf K alg windowFunc windowSize data).length = windowSize / 2 := by
  simp [accumHalf]

theorem postProcess_length (K : Kernels) (alg : Int) (half : Nat) (wss : ℚ)
    (windows : Nat) (acc : List ℚ) :
    (postProcess K alg half wss windows acc).1.length = acc.length := by
  unfold postProcess
  split_ifs <;> simp [postSpectrum, postEnhanced]

theorem Calculate_success (K : Kernels) (st : AnalystState) (alg windowFunc : Int)
    (windowSize : Nat) (rate : ℚ) (data : List ℚ)
    (h1 : 32 ≤ windowSize ∧ windowSize ≤ 65536 ∧ 0 ≤ alg ∧ alg < 5 ∧
      0 ≤ windowFunc ∧ windowFunc < K.numWindowFuncs)
    (h2 : ¬ data.length < windowSize) :
    Calculate K st alg windowFunc windowSize rate data =
      ⟨⟨(postProcess K alg (windowSize / 2) (wssOf K windowFunc windowSize)
            (windowCount windowSize data.length)
            (accumHalf K alg windowFunc windowSize data)).1 ++
          List.replicate (windowSize - windowSize / 2) 0, rate, windowSize, alg⟩,
        some ((postProcess K alg (windowSize / 2) (wssOf K windowFunc windowSize)
            (windowCount windowSize data.length)
            (accumHalf K alg windowFunc windowSize data)).2.1,
          (postProcess K alg (windowSize / 2) (wssOf K windowFunc windowSize)
            (windowCount windowSize data.length)
            (accumHalf K alg windowFunc windowSize data)).2.2)⟩ := by
  unfold Calculate
  rw [if_neg (not_not_intro h1), if_neg h2]

theorem Calculate_failure (K : Kernels) (st : AnalystState) (alg windowFunc : Int)
    (windowSize : Nat) (rate : ℚ) (data : List ℚ)
    (h : ¬(32 ≤ windowSize ∧ windowSize ≤ 65536 ∧ 0 ≤ alg ∧ alg < 5 ∧
        0 ≤ windowFunc ∧ windowFunc < K.numWindowFuncs) ∨ data.length < windowSize) :
    Calculate K st alg windowFunc windowSize rate data = ⟨⟨[], 0, 0, st.mAlg⟩, none⟩ := by
  unfold Calculate
  rcases h with h | h
  · rw [if_pos h]
  · by_cases h1 : 32 ≤ windowSize ∧ windowSize ≤ 65536 ∧ 0 ≤ alg ∧ alg < 5 ∧
        0 ≤ windowFunc ∧ windowFunc < K.numWindowFuncs
    · rw [if_neg (not_not_intro h1), if_pos h]
    · rw [if_pos h1]

/-- Claim C5: `GetProcessedSize` returns `windowSize / 2` after every
successful `Calculate` with window size `windowSize`, and returns 0 before
any successful `Calculate` — on the freshly constructed engine and after a
failed call. -/
theorem C5_processed_size (K : Kernels) (st : AnalystState) (alg windowFunc : Int)
    (windowSize : Nat) (rate : ℚ) (data : List ℚ) :
    ((Calculate K st alg windowFunc windowSize rate data).yRange.isSome = true →
      GetProcessedSize (Calculate K st alg windowFunc windowSize rate data).state =
        windowSize / 2) ∧
    ((Calculate K st alg windowFunc windowSize rate data).yRange = none →
      GetProcessedSize (Calculate K st alg windowFunc windowSize rate data).state = 0) ∧
    GetProcessedSize initialState = 0 := by
  refine ⟨?_, ?_, by simp [GetProcessedSize, initialState]⟩
  · intro hs
    by_cases h1 : 32 ≤ windowSize ∧ windowSize ≤ 65536 ∧ 0 ≤ alg ∧ alg < 5 ∧
        0 ≤ windowFunc ∧ windowFunc < K.numWindowFuncs
    · by_cases h2 : data.length < windowSize
      · rw [Calculate_failure K st alg windowFunc windowSize rate data (Or.inr h2)] at hs
        simp at hs
      · rw [Calculate_success K st alg windowFunc windowSize rate data h1 h2]
        simp only [GetProcessedSize, List.length_append, List.length_replicate,
          postProcess_length, accumHalf_length]
        omega
    · rw [Calculate_failure K st alg windowFunc windowSize rate data (Or.inl h1)] at hs
      simp at hs
  · intro hn
    by_cases h1 : 32 ≤ windowSize ∧ windowSize ≤ 65536 ∧ 0 ≤ alg ∧ alg < 5 ∧
        0 ≤ windowFunc ∧ windowFunc < K.numWindowFuncs
    · by_cases h2 : data.length < windowSize
      · rw [Calculate_failure K st alg windowFunc windowSize rate data (Or.inr h2)]
        simp [GetProcessedSize]
      · rw [Calculate_success K st alg windowFunc windowSize rate data h1 h2] at hn
        simp at hn
    · rw [Calculate_failure K st alg windowFunc windowSize rate data (Or.inl h1)]
      simp [GetProcessedSize]

/-- Trivial kernel instance (rectangular window catalog of size one,
identity transforms) used by concrete runs. -/
def flatKernels : Kernels :=
  ⟨1, fun _ n => List.replicate n 1, id, id, id, id, id, id, id, id⟩

/-- Witness for C5: a successful call with windowSize = 32 yields processed
size 32 / 2, a failing call (windowSize = 16) yields 0. -/
theorem C5_processed_size_witness :
    GetProcessedSize (Calculate flatKernels initialState 1 0 32 1
      (List.replicate 32 0)).state = 32 / 2 ∧
    GetProcessedSize (Calculate flatKernels initialState 1 0 16 1
      (List.replicate 32 0)).state = 0 := by
  constructor
  · refine (C5_processed_size flatKernels initialState 1 0 32 1 (List.replicate 32 0)).1 ?_
    rw [Calculate_success flatKernels initialState 1 0 32 1 (List.replicate 32 0)
      (by norm_num [flatKernels]) (by simp)]
    rfl
  · refine (C5_processed_size flatKernels initialState 1 0 16 1 (List.replicate 32 0)).2.1 ?_
    rw [Calculate_failure flatKernels initialState 1 0 16 1 (List.replicate 32 0)
      (Or.inl (by norm_num))]

theorem windowStartsAux_succ (windowSize halfSize dataLen start fuel : Nat) :
    windowStartsAux windowSize halfSize dataLen start (fuel + 1) =
      if start + windowSize ≤ dataLen then
        start :: windowStartsAux windowSize halfSize dataLen (start + halfSize) fuel
      else [] := rfl

/-- Claim C8: on every input accepted by validation (in particular
`dataLen ≥ windowSize`), the overlapped-window loop with hop
`windowSize / 2` processes at least one window, so the window count used as
the post-processing divisor is nonzero, and `Calculate` succeeds (the
zero-window case the spec asks to guard is unreachable; the
`dataLen < windowSize` check is the `InsufficientData` guard). -/
theorem C8_at_least_one_window (K : Kernels) (st : AnalystState) (alg windowFunc : Int)
    (windowSize : Nat) (rate : ℚ) (data : List ℚ)
    (h1 : 32 ≤ windowSize) (h2 : windowSize ≤ 65536) (h3 : 0 ≤ alg) (h4 : alg < 5)
    (h5 : 0 ≤ windowFunc) (h6 : windowFunc < K.numWindowFuncs)
    (h7 : windowSize ≤ data.length) :
    1 ≤ windowCount windowSize data.length ∧
    ((windowCount windowSize data.length : ℚ) ≠ 0) ∧
    (Calculate K st alg windowFunc windowSize rate data).yRange.isSome = true := by
  have hw : 1 ≤ windowCount windowSize data.length := by
    unfold windowCount windowStarts
    rw [windowStartsAux_succ, if_pos (by omega)]
    simp
  refine ⟨hw, Nat.cast_ne_zero.mpr (by omega), ?_⟩
  rw [Calculate_success K st alg windowFunc windowSize rate data
    ⟨h1, h2, h3, h4, h5, h6⟩ (by omega)]
  rfl

/-- Witness for C8: windowSize = 32 on 48 samples gives at least one window
(in fact two) and a successful call. -/
theorem C8_at_least_one_window_witness :
    1 ≤ windowCount 32 (List.replicate 48 (0 : ℚ)).length ∧
    ((windowCount 32 (List.replicate 48 (0 : ℚ)).length : ℚ) ≠ 0) ∧
    (Calculate flatKernels initialState 2 0 32 1
      (List.replicate 48 0)).yRange.isSome = true := by
  exact C8_at_least_one_window flatKernels initialState 2 0 32 1 (List.replicate 48 0)
    (by norm_num) (by norm_num) (by norm_num) (by norm_num) (by norm_num)
    (by norm_num [flatKernels]) (by simp)

/-- Kernel instance for the C2 run: one rectangular window function and a
power-spectrum kernel (black box per spec section 6) whose bins increase
strictly; log10 is instantiated by the identity, which the min/max scan
never depends on. -/
def increasingSpecKernels : Kernels :=
  ⟨1, fun _ n => (List.range n).map (fun _ : Nat => (1 : ℚ)),
   fun _ => (List.range 16).map (fun i : Nat => ((i : ℚ) + 1) * 256),
   id, id, id, id, id, id, id⟩

theorem windowStartsAux_stop (windowSize halfSize dataLen start fuel : Nat)
    (h : ¬ start + windowSize ≤ dataLen) :
    windowStartsAux windowSize halfSize dataLen start fuel = [] := by
  cases fuel with
  | zero => rfl
  | succ f => rw [windowStartsAux_succ, if_neg h]

theorem windowStarts_32_32 : windowStarts 32 32 = [0] := by
  unfold windowStarts
  rw [windowStartsAux_succ, if_pos (by norm_num),
    windowStartsAux_stop _ _ _ _ _ (by norm_num)]

theorem C2_accumHalf : accumHalf increasingSpecKernels 0 0 32 (List.replicate 32 0) =
    (List.range 16).map (fun i : Nat => ((i : ℚ) + 1) * 256) := by
  unfold accumHalf
  rw [show (32 : Nat) / 2 = 16 by norm_num]
  refine List.map_congr_left ?_
  intro i hi
  rw [List.mem_range] at hi
  unfold accumBin
  rw [List.length_replicate, windowStarts_32_32]
  simp only [List.map_cons, List.map_nil, List.sum_cons, List.sum_nil, add_zero]
  unfold transformOf
  rw [if_pos rfl]
  show lget ((List.range 16).map fun i : Nat => ((i : ℚ) + 1) * 256) i = _
  rw [lget_range_map, if_pos hi]

theorem C2_wss : wssOf increasingSpecKernels 0 32 = 1 / 256 := by
  have h32 : windowSum increasingSpecKernels 0 32 = 32 := by
    have h : (List.range 32).map (fun i => lget (winCoeffs increasingSpecKernels 0 32) i) =
        (List.range 32).map (fun _ : Nat => (1 : ℚ)) := by
      refine List.map_congr_left ?_
      intro i hi
      rw [List.mem_range] at hi
      show lget ((List.range 32).map (fun _ : Nat => (1 : ℚ))) i = 1
      rw [lget_range_map, if_pos hi]
    unfold windowSum
    rw [h]
    norm_num [List.range_succ]
  unfold wssOf
  rw [h32]
  norm_num

theorem C2_windowCount : windowCount 32 32 = 1 := by
  unfold windowCount
  rw [windowStarts_32_32]
  rfl

/-- Claim C2 (code bug): a successful Spectrum `Calculate` whose converted
bins are strictly increasing (10, 20, ..., 160 here) reports
`minValue = 1000000` — the untouched sentinel — because the
`if (v > mYMax) ... else if (v < mYMin)` scan never lets a bin that sets a
new maximum also be considered for the minimum; the actual minimum of the
converted curve is 10.  The bin values themselves follow the claimed
`10 * log10(acc * normalization / windowCount)` formula. -/
theorem C2_spectrum_minmax_bug :
    (Calculate increasingSpecKernels initialState 0 0 32 1
      (List.replicate 32 0)).yRange = some (1000000, 160) ∧
    listMinD ((Calculate increasingSpecKernels initialState 0 0 32 1
      (List.replicate 32 0)).state.mProcessed.take 16) =
      10 ∧
    (1000000 : ℚ) ≠ 10 := by
  have hcalc := Calculate_success increasingSpecKernels initialState 0 0 32 1
    (List.replicate 32 0) (by norm_num [increasingSpecKernels]) (by simp)
  have hmap : postSpectrum increasingSpecKernels (1 / 256) 1
      ((List.range 16).map (fun i : Nat => ((i : ℚ) + 1) * 256)) =
      [10, 20, 30, 40, 50, 60, 70, 80, 90, 100, 110, 120, 130, 140, 150, 160] := by
    unfold postSpectrum
    rw [List.map_map]
    norm_num [List.range_succ, increasingSpecKernels]
  have hpost : postProcess increasingSpecKernels 0 (32 / 2)
      (wssOf increasingSpecKernels 0 32) (windowCount 32 (List.replicate 32 (0 : ℚ)).length)
      (accumHalf increasingSpecKernels 0 0 32 (List.replicate 32 0)) =
      ([10, 20, 30, 40, 50, 60, 70, 80, 90, 100, 110, 120, 130, 140, 150, 160],
        1000000, 160) := by
    rw [List.length_replicate, C2_windowCount, C2_wss, C2_accumHalf]
    unfold postProcess
    rw [if_pos rfl]
    simp only [hmap]
    norm_num [minmaxStep]
  rw [hcalc, hpost]
  refine ⟨rfl, ?_, by norm_num⟩
  show listMinD (List.take 16
    ([10, 20, 30, 40, 50, 60, 70, 80, 90, 100, 110, 120, 130, 140, 150, 160] ++
      List.replicate (32 - 32 / 2) (0 : ℚ))) = 10
  rw [List.take_left' (by norm_num)]
  norm_num [listMinD, min_def]

theorem clipZero_nonneg (x : ℚ) : 0 ≤ clipZero x := by
  unfold clipZero
  split
  · exact le_rfl
  · linarith [not_lt.1 (by assumption : ¬ x < 0)]

theorem minmax_code_eq (l : List ℚ) (hne : l ≠ []) :
    (l.drop 1).foldl minmaxStep (lget l 0, lget l 0) = (listMinD l, listMaxD l) := by
  cases l with
  | nil => exact absurd rfl hne
  | cons a as => simpa [lget] using foldl_minmaxStep_head a as

theorem listMinD_mem (l : List ℚ) (hne : l ≠ []) : listMinD l ∈ l := by
  cases l with
  | nil => exact absurd rfl hne
  | cons a as =>
    have h : (a :: as).min? = some (as.foldl min a) := rfl
    have := List.min?_mem (α := ℚ) (fun x y => min_choice x y) h
    simpa [listMinD, h] using this

theorem postEnhanced_length (windows : Nat) (acc : List ℚ) :
    (postEnhanced windows acc).length = acc.length := by
  simp [postEnhanced]

theorem postEnhanced_all_nonneg (windows : Nat) (acc : List ℚ) :
    ∀ x ∈ postEnhanced windows acc, 0 ≤ x := by
  intro x hx
  unfold postEnhanced at hx
  rcases List.mem_map.mp hx with ⟨y, _, hy⟩
  rw [← hy]
  exact clipZero_nonneg y

theorem lget_postEnhanced (windows : Nat) (acc : List ℚ) (i : Nat) (hi : i < acc.length)
    (hlen : 2 < acc.length) :
    lget (postEnhanced windows acc) i =
      clipZero (clipZero (lget acc i / (windows : ℚ)) -
        (if i % 2 = 0 then clipZero (lget acc (i / 2) / (windows : ℚ))
         else (clipZero (lget acc (i / 2) / (windows : ℚ)) +
            clipZero (lget acc (i / 2 + 1) / (windows : ℚ))) / 2)) := by
  have hclip : ∀ j, j < acc.length →
      lget ((acc.map (fun x => x / (windows : ℚ))).map clipZero) j =
        clipZero (lget acc j / (windows : ℚ)) := by
    intro j hj
    rw [lget_map_of_lt _ _ _ (by simpa using hj), lget_map_of_lt _ _ _ hj]
  unfold postEnhanced
  rw [lget_map_of_lt _ _ _ (by simpa using hi), lget_range_map, if_pos hi,
    hclip i hi, hclip (i / 2) (by omega), hclip (i / 2 + 1) (by omega)]

/-- Claim C6: for every successful Calculate with EnhancedAutocorrelation
(tag 3), the final curve is the accumulated curve divided by the window
count, clipped at zero, with the linearly interpolated time-doubled clipped
copy subtracted (even i: the clipped value at i/2; odd i: the average of the
clipped values at i/2 and i/2+1), clipped at zero again; the reported pair
is the actual minimum and maximum of the result after both clips, and the
reported minimum is nonnegative. -/
theorem C6_enhanced_post (K : Kernels) (st : AnalystState) (windowFunc : Int)
    (windowSize : Nat) (rate : ℚ) (data : List ℚ)
    (h1 : 32 ≤ windowSize) (h2 : windowSize ≤ 65536)
    (h5 : 0 ≤ windowFunc) (h6 : windowFunc < K.numWindowFuncs)
    (h7 : windowSize ≤ data.length) :
    (∀ i < windowSize / 2,
      lget (Calculate K st 3 windowFunc windowSize rate data).state.mProcessed i =
        clipZero
          (clipZero (accumBin K 3 windowFunc windowSize data i /
              (windowCount windowSize data.length : ℚ)) -
            (if i % 2 = 0 then
              clipZero (accumBin K 3 windowFunc windowSize data (i / 2) /
                (windowCount windowSize data.length : ℚ))
            else
              (clipZero (accumBin K 3 windowFunc windowSize data (i / 2) /
                  (windowCount windowSize data.length : ℚ)) +
                clipZero (accumBin K 3 windowFunc windowSize data (i / 2 + 1) /
                  (windowCount windowSize data.length : ℚ))) / 2))) ∧
    (Calculate K st 3 windowFunc windowSize rate data).yRange =
      some (listMinD ((Calculate K st 3 windowFunc windowSize rate
          data).state.mProcessed.take (windowSize / 2)),
        listMaxD ((Calculate K st 3 windowFunc windowSize rate
          data).state.mProcessed.take (windowSize / 2))) ∧
    0 ≤ listMinD ((Calculate K st 3 windowFunc windowSize rate
      data).state.mProcessed.take (windowSize / 2)) := by
  have hv : 32 ≤ windowSize ∧ windowSize ≤ 65536 ∧ (0 : Int) ≤ 3 ∧ (3 : Int) < 5 ∧
      0 ≤ windowFunc ∧ windowFunc < K.numWindowFuncs :=
    ⟨h1, h2, by norm_num, by norm_num, h5, h6⟩
  rw [Calculate_success K st 3 windowFunc windowSize rate data hv (by omega)]
  have hpp : postProcess K 3 (windowSize / 2) (wssOf K windowFunc windowSize)
      (windowCount windowSize data.length) (accumHalf K 3 windowFunc windowSize data) =
      (postEnhanced (windowCount windowSize data.length)
          (accumHalf K 3 windowFunc windowSize data),
        (((postEnhanced (windowCount windowSize data.length)
            (accumHalf K 3 windowFunc windowSize data)).drop 1).foldl minmaxStep
          (lget (postEnhanced (windowCount windowSize data.length)
            (accumHalf K 3 windowFunc windowSize data)) 0,
           lget (postEnhanced (windowCount windowSize data.length)
            (accumHalf K 3 windowFunc windowSize data)) 0)).1,
        (((postEnhanced (windowCount windowSize data.length)
            (accumHalf K 3 windowFunc windowSize data)).drop 1).foldl minmaxStep
          (lget (postEnhanced (windowCount windowSize data.length)
            (accumHalf K 3 windowFunc windowSize data)) 0,
           lget (postEnhanced (windowCount windowSize data.length)
            (accumHalf K 3 windowFunc windowSize data)) 0)).2) := by
    unfold postProcess
    rw [if_neg (by norm_num), if_pos rfl]
  rw [hpp]
  set w := windowCount windowSize data.length with hw
  set A := accumHalf K 3 windowFunc windowSize data with hA
  set E := postEnhanced w A with hE
  have hAlen : A.length = windowSize / 2 := accumHalf_length K 3 windowFunc windowSize data
  have hElen : E.length = windowSize / 2 := by
    rw [hE, postEnhanced_length, hAlen]
  have h16 : 16 ≤ windowSize / 2 := by omega
  have hEne : E ≠ [] := by
    intro hnil
    rw [hnil] at hElen
    simp at hElen
    omega
  have hmm := minmax_code_eq E hEne
  have htake : (E ++ List.replicate (windowSize - windowSize / 2) (0 : ℚ)).take
      (windowSize / 2) = E := List.take_left' hElen
  refine ⟨?_, ?_, ?_⟩
  · intro i hi
    show lget (E ++ List.replicate (windowSize - windowSize / 2) 0) i = _
    rw [lget_append_left _ _ _ (by omega), hE,
      lget_postEnhanced w A i (by omega) (by omega)]
    have hacc : ∀ j, j < windowSize / 2 → lget A j = accumBin K 3 windowFunc windowSize data j := by
      intro j hj
      rw [hA]
      unfold accumHalf
      rw [lget_range_map, if_pos hj]
    rw [hacc i hi, hacc (i / 2) (by omega), hacc (i / 2 + 1) (by omega)]
  · show some _ = _
    rw [show ((E ++ List.replicate (windowSize - windowSize / 2) (0:ℚ)) : List ℚ).take
        (windowSize / 2) = E from htake, hmm]
  · rw [show ((E ++ List.replicate (windowSize - windowSize / 2) (0:ℚ)) : List ℚ).take
        (windowSize / 2) = E from htake]
    exact postEnhanced_all_nonneg w A (listMinD E) (listMinD_mem E hEne)

/-- Witness for C6: a concrete successful EnhancedAutocorrelation call. -/
theorem C6_enhanced_post_witness :
    (Calculate flatKernels initialState 3 0 32 1 (List.replicate 32 0)).yRange =
      some (listMinD ((Calculate flatKernels initialState 3 0 32 1
          (List.replicate 32 0)).state.mProcessed.take (32 / 2)),
        listMaxD ((Calculate flatKernels initialState 3 0 32 1
          (List.replicate 32 0)).state.mProcessed.take (32 / 2))) ∧
    0 ≤ listMinD ((Calculate flatKernels initialState 3 0 32 1
      (List.replicate 32 0)).state.mProcessed.take (32 / 2)) := by
  have h := C6_enhanced_post flatKernels initialState 0 32 1 (List.replicate 32 0)
    (by norm_num) (by norm_num) (by norm_num) (by norm_num [flatKernels]) (by simp)
  exact ⟨h.2.1, h.2.2⟩

theorem drop_take_cons (p : List ℚ) (n k : Nat) (h : n < p.length) :
    (p.drop n).take (k + 1) = lget p n :: (p.drop (n + 1)).take k := by
  rw [List.drop_eq_getElem_cons h, List.take_succ_cons]
  unfold lget
  rw [List.getD_eq_getElem _ _ h]

/-- Claim C7: for every successful Calculate with Cepstrum (tag 4), each
window contribution is the inverse real FFT of the natural log of the
per-bin FFT power floored at `1e-20 * windowSize^2` (its real half being
accumulated), the final curve is the accumulated curve divided by the
window count, and the reported pair is the min/max over bins 4 through
`windowSize/2 - 5` only — the 4 edge bins at either end are excluded from
the min/max but remain present in the stored curve of length windowSize. -/
theorem C7_cepstrum_post (K : Kernels) (st : AnalystState) (windowFunc : Int)
    (windowSize : Nat) (rate : ℚ) (data : List ℚ)
    (h1 : 32 ≤ windowSize) (h2 : windowSize ≤ 65536)
    (h5 : 0 ≤ windowFunc) (h6 : windowFunc < K.numWindowFuncs)
    (h7 : windowSize ≤ data.length) :
    (∀ fr : List ℚ, transformOf K 4 windowSize fr =
      K.irfft (cepstrumLogList K windowSize fr)) ∧
    (∀ i < windowSize / 2,
      lget (Calculate K st 4 windowFunc windowSize rate data).state.mProcessed i =
        accumBin K 4 windowFunc windowSize data i /
          (windowCount windowSize data.length : ℚ)) ∧
    (Calculate K st 4 windowFunc windowSize rate data).state.mProcessed.length = windowSize ∧
    GetProcessedSize (Calculate K st 4 windowFunc windowSize rate data).state =
      windowSize / 2 ∧
    (Calculate K st 4 windowFunc windowSize rate data).yRange =
      some (listMinD (((Calculate K st 4 windowFunc windowSize rate
            data).state.mProcessed.drop 4).take (windowSize / 2 - 8)),
        listMaxD (((Calculate K st 4 windowFunc windowSize rate
            data).state.mProcessed.drop 4).take (windowSize / 2 - 8))) := by
  have hv : 32 ≤ windowSize ∧ windowSize ≤ 65536 ∧ (0 : Int) ≤ 4 ∧ (4 : Int) < 5 ∧
      0 ≤ windowFunc ∧ windowFunc < K.numWindowFuncs :=
    ⟨h1, h2, by norm_num, by norm_num, h5, h6⟩
  rw [Calculate_success K st 4 windowFunc windowSize rate data hv (by omega)]
  set w := windowCount windowSize data.length with hw
  set A := accumHalf K 4 windowFunc windowSize data with hA
  set p := A.map (fun x => x / (w : ℚ)) with hp
  have hpp : postProcess K 4 (windowSize / 2) (wssOf K windowFunc windowSize) w A =
      (p, ((p.drop 5).take (windowSize / 2 - 9)).foldl minmaxStep (lget p 4, lget p 4)) := by
    unfold postProcess
    rw [if_neg (by norm_num), if_neg (by norm_num), if_pos rfl]
  rw [hpp]
  have hAlen : A.length = windowSize / 2 := accumHalf_length K 4 windowFunc windowSize data
  have hplen : p.length = windowSize / 2 := by rw [hp]; simpa using hAlen
  have h16 : 16 ≤ windowSize / 2 := by omega
  have hdt : (p.drop 4).take (windowSize / 2 - 8) = lget p 4 :: (p.drop 5).take
      (windowSize / 2 - 9) := by
    rw [show windowSize / 2 - 8 = (windowSize / 2 - 9) + 1 by omega,
      drop_take_cons p 4 (windowSize / 2 - 9) (by omega)]
  have hdtp : ((p ++ List.replicate (windowSize - windowSize / 2) (0 : ℚ)).drop 4).take
      (windowSize / 2 - 8) = (p.drop 4).take (windowSize / 2 - 8) := by
    rw [List.drop_append_of_le_length (by omega),
      List.take_append_of_le_length (by simp [hplen]; omega)]
  refine ⟨?_, ?_, ?_, ?_, ?_⟩
  · intro fr
    unfold transformOf
    rw [if_neg (by norm_num), if_pos rfl]
  · intro i hi
    show lget (p ++ List.replicate (windowSize - windowSize / 2) 0) i = _
    rw [lget_append_left _ _ _ (by omega), hp, lget_map_of_lt _ _ _ (by omega), hA]
    unfold accumHalf
    rw [lget_range_map, if_pos hi]
  · simp [hplen]
    omega
  · show ((p ++ List.replicate (windowSize - windowSize / 2) 0).length) / 2 = windowSize / 2
    simp [hplen]
    omega
  · show some _ = _
    rw [hdtp, hdt, foldl_minmaxStep_head]

theorem cTrunc_of_nonneg (q : ℚ) (h : 0 ≤ q) : cTrunc q = Int.floor q := by
  unfold cTrunc
  rw [if_neg (not_lt.2 h)]

/-- The integration loop of `GetProcessedValue` (first fractional bin, full
bins, last fractional bin) computes the piecewise-constant integral, for
nonnegative endpoints, provided the lower endpoint is integral whenever the
two endpoints share a bin and the upper endpoint is integral whenever the
range is inverted — the only shapes the clamps of `GetProcessedValue`
produce. -/
theorem codeSum_eq_specIntegral (P : List ℚ) (x y : ℚ) (hx : 0 ≤ x) (hy : 0 ≤ y)
    (h1 : y < x → y = (⌊y⌋ : ℚ)) (h2 : ⌊x⌋ = ⌊y⌋ → x = (⌊x⌋ : ℚ) ∨ y = (⌊y⌋ : ℚ)) :
    (if cTrunc y > cTrunc x then lgetI P (cTrunc x) * ((cTrunc x : ℚ) + 1 - x) else 0) +
      gpvSum P (cTrunc y) (1 + cTrunc x) +
      lgetI P (cTrunc y) * (y - (cTrunc y : ℚ)) = specIntegral P x y := by
  rw [cTrunc_of_nonneg x hx, cTrunc_of_nonneg y hy]
  unfold specIntegral
  rcases le_or_lt y x with hyx | hxy
  · rw [if_pos hyx]
    have hfl : ⌊y⌋ ≤ ⌊x⌋ := Int.floor_le_floor hyx
    rw [if_neg (by omega), gpvSum_of_le _ _ _ (by omega)]
    have hy0 : y = (⌊y⌋ : ℚ) := by
      rcases eq_or_lt_of_le hyx with heq | hlt
      · have hfe : ⌊x⌋ = ⌊y⌋ := by rw [heq]
        rcases h2 hfe with hxi | hyi
        · rw [heq]
          exact hxi
        · exact hyi
      · exact h1 hlt
    rw [← hy0]
    ring
  · rw [if_neg (not_le.2 hxy)]
    have hfl : ⌊x⌋ ≤ ⌊y⌋ := Int.floor_le_floor (le_of_lt hxy)
    rcases eq_or_lt_of_le hfl with hfe | hflt
    · rw [if_pos hfe]
      rcases h2 hfe with hxi | hyi
      · rw [if_neg (by omega), gpvSum_of_le _ _ _ (by omega), ← hfe, ← hxi]
        ring
      · exfalso
        have hle : (⌊x⌋ : ℚ) ≤ x := Int.floor_le x
        rw [hfe, ← hyi] at hle
        linarith
    · rw [if_neg (show ¬ ⌊x⌋ = ⌊y⌋ by omega),
        if_pos (show ⌊y⌋ > ⌊x⌋ from hflt), add_comm 1 (⌊x⌋)]

theorem clampIndex_eq (m n : Int) (hn : 5 ≤ n) :
    (if (if m - 1 < 1 then 1 else m - 1) ≥ n - 3 then max 0 (n - 4)
     else if m - 1 < 1 then 1 else m - 1) = max 1 (min (m - 1) (n - 4)) := by
  split_ifs <;> omega

/-- Claim C3 amended: on a stored curve with at least 5 meaningful bins and
a query whose upper mapped index is nonnegative, `GetProcessedValue` behaves
exactly as the claim says except for the upper clamp: the upper index
endpoint is replaced by `size - 1` only when it reaches `size`; an endpoint
strictly inside the last bin is integrated as is (not clamped to
`size - 1`). -/
theorem C3_query_amended (st : AnalystState) (freq0 freq1 : ℚ)
    (hsize : 5 ≤ GetProcessedSize st) (hb1 : 0 ≤ indexMap st freq1) :
    GetProcessedValue st freq0 freq1 = GetProcessedValueAmended st freq0 freq1 := by
  have hn : (5 : Int) ≤ (GetProcessedSize st : Int) := by exact_mod_cast hsize
  simp only [GetProcessedValue, GetProcessedValueAmended]
  by_cases hbw : indexMap st freq1 - indexMap st freq0 < 1
  · rw [if_pos hbw, if_pos hbw, clampIndex_eq _ _ hn]
  · rw [if_neg hbw, if_neg hbw]
    have hb0 : (if indexMap st freq0 < 0 then (0 : ℚ) else indexMap st freq0) =
        max (indexMap st freq0) 0 := by
      by_cases h : indexMap st freq0 < 0
      · rw [if_pos h, max_eq_right h.le]
      · rw [if_neg h, max_eq_left (not_lt.1 h)]
    rw [hb0]
    set x := max (indexMap st freq0) 0 with hxdef
    set y := (if indexMap st freq1 ≥ ((GetProcessedSize st : ℤ) : ℚ) then
      ((GetProcessedSize st : ℤ) : ℚ) - 1 else indexMap st freq1) with hydef
    have hwide : indexMap st freq0 + 1 ≤ indexMap st freq1 := by linarith [not_lt.1 hbw]
    have hy : 0 ≤ y := by
      rw [hydef]
      by_cases hcl : indexMap st freq1 ≥ ((GetProcessedSize st : ℤ) : ℚ)
      · rw [if_pos hcl]
        have : ((5 : ℤ) : ℚ) ≤ ((GetProcessedSize st : ℤ) : ℚ) := by exact_mod_cast hn
        push_cast at this ⊢
        linarith
      · rw [if_neg hcl]
        exact hb1
    have hyint : indexMap st freq1 ≥ ((GetProcessedSize st : ℤ) : ℚ) →
        y = ((⌊y⌋ : ℤ) : ℚ) := by
      intro hcl
      have hyv : y = ((GetProcessedSize st : ℤ) : ℚ) - 1 := by rw [hydef, if_pos hcl]
      rw [hyv, show ((GetProcessedSize st : ℤ) : ℚ) - 1 =
        (((GetProcessedSize st : ℤ) - 1 : ℤ) : ℚ) by push_cast; ring, Int.floor_intCast]
    have h1 : y < x → y = ((⌊y⌋ : ℤ) : ℚ) := by
      intro hlt
      by_cases hcl : indexMap st freq1 ≥ ((GetProcessedSize st : ℤ) : ℚ)
      · exact hyint hcl
      · exfalso
        have hxy : x ≤ y := by
          rw [hydef, if_neg hcl]
          exact max_le (by linarith) hb1
        linarith
    have h2 : ⌊x⌋ = ⌊y⌋ → x = ((⌊x⌋ : ℤ) : ℚ) ∨ y = ((⌊y⌋ : ℤ) : ℚ) := by
      intro hfe
      by_cases hcl : indexMap st freq1 ≥ ((GetProcessedSize st : ℤ) : ℚ)
      · exact Or.inr (hyint hcl)
      · rcases le_or_lt (indexMap st freq0) 0 with hneg | hpos
        · left
          rw [hxdef, max_eq_right hneg]
          simp
        · exfalso
          have hxx : x = indexMap st freq0 := max_eq_left hpos.le
          have hyy : y = indexMap st freq1 := by rw [hydef, if_neg hcl]
          have hstep : x + 1 ≤ y := by rw [hxx, hyy]; linarith
          have hf1 : ⌊x + 1⌋ ≤ ⌊y⌋ := Int.floor_le_floor hstep
          rw [Int.floor_add_one] at hf1
          omega
    exact congrArg (fun t => t / (indexMap st freq1 - indexMap st freq0))
      (codeSum_eq_specIntegral st.mProcessed x y (le_max_right _ 0) hy h1 h2)

/-- Stored state for the C3 counterexample: a 16-bin all-ones curve (full
list length 32 = windowSize), lag mode (Autocorrelation), rate 1. -/
def qState : AnalystState := ⟨List.replicate 16 1 ++ List.replicate 16 0, 1, 32, 1⟩

theorem qState_lgetI (i : Int) (h0 : 0 ≤ i) (hlt : i.toNat < 16) :
    lgetI qState.mProcessed i = 1 := by
  unfold lgetI
  rw [if_pos h0]
  unfold lget qState
  rw [List.getD_eq_getElem _ _ (by simp; omega), List.getElem_append_left (by simpa using hlt)]
  rw [List.getElem_replicate]

/-- Claim C3, counterexample: on the all-ones 16-bin curve, the query range
[14, 15.5] in index space (binwidth 1.5) is integrated by the code up to
15.5 — the upper endpoint lies inside the last bin and is *not* clamped to
size - 1 = 15 — giving (1 + 0.5)/1.5 = 1, while the claim's "index range
clamped to [0, size-1]" yields (1 + 0)/1.5 = 2/3. -/
theorem C3_counterexample :
    GetProcessedValue qState 14 (31 / 2) = 1 ∧
    GetProcessedValueClaim qState 14 (31 / 2) = 2 / 3 ∧
    (1 : ℚ) ≠ 2 / 3 := by
  have hgps : GetProcessedSize qState = 16 := by simp [GetProcessedSize, qState]
  have him0 : indexMap qState 14 = 14 := by norm_num [indexMap, qState]
  have him1 : indexMap qState (31 / 2) = 31 / 2 := by norm_num [indexMap, qState]
  have hct14 : cTrunc (14 : ℚ) = 14 := by
    rw [cTrunc_of_nonneg _ (by norm_num)]
    norm_num
  have hct15 : cTrunc (31 / 2 : ℚ) = 15 := by
    rw [cTrunc_of_nonneg _ (by norm_num)]
    norm_num
  have h14 : lgetI qState.mProcessed 14 = 1 := qState_lgetI 14 (by norm_num) (by norm_num)
  have h15 : lgetI qState.mProcessed 15 = 1 := qState_lgetI 15 (by norm_num) (by norm_num)
  refine ⟨?_, ?_, by norm_num⟩
  · simp only [GetProcessedValue, him0, him1, hgps]
    rw [if_neg (show ¬ (31 / 2 - 14 : ℚ) < 1 by norm_num),
      if_neg (show ¬ (14 : ℚ) < 0 by norm_num),
      if_neg (show ¬ (31 / 2 : ℚ) ≥ (((16 : ℕ) : ℤ) : ℚ) by push_cast; norm_num),
      hct14, hct15, if_pos (show (15 : ℤ) > 14 by norm_num), h14, h15,
      show (1 : ℤ) + 14 = 15 by norm_num, gpvSum_of_le _ _ _ le_rfl]
    push_cast
    norm_num
  · simp only [GetProcessedValueClaim, him0, him1, hgps]
    rw [if_neg (show ¬ (31 / 2 - 14 : ℚ) < 1 by norm_num),
      show max (14 : ℚ) 0 = 14 by norm_num,
      show min (31 / 2 : ℚ) ((((16 : ℕ) : ℤ) : ℚ) - 1) = 15 by push_cast; norm_num]
    unfold specIntegral
    rw [if_neg (show ¬ (15 : ℚ) ≤ 14 by norm_num),
      show ⌊(14 : ℚ)⌋ = 14 by norm_num, show ⌊(15 : ℚ)⌋ = 15 by norm_num,
      if_neg (show ¬ (14 : ℤ) = 15 by norm_num),
      h14, h15, show (14 : ℤ) + 1 = 15 by norm_num, gpvSum_of_le _ _ _ le_rfl]
    push_cast
    norm_num

/-- Witness for the amended C3, applied on the counterexample state with the
same query: both sides evaluate, and agree. -/
theorem C3_query_amended_witness :
    5 ≤ GetProcessedSize qState ∧
    GetProcessedValue qState 14 (31 / 2) = GetProcessedValueAmended qState 14 (31 / 2) := by
  refine ⟨by norm_num [GetProcessedSize, qState], ?_⟩
  exact C3_query_amended qState 14 (31 / 2) (by norm_num [GetProcessedSize, qState])
    (by norm_num [indexMap, qState])

/-- The scan loop of `FindPeak` is the fold `selectPeak` of the refined
candidate list: a structural refinement of the single-pass loop. -/
theorem findPeakLoop_eq_selectPeak (sqrtf : ℚ → ℚ) (P : List ℚ) (isSpectrum : Bool)
    (rate : ℚ) (windowSize : Nat) (xPos : ℚ) :
    ∀ (fuel : Nat) (bin : Int) (up : Bool) (bp bd bv : ℚ),
      findPeakLoop sqrtf P isSpectrum rate windowSize xPos fuel bin up bp bd bv =
        selectPeak xPos ((peakCandAux P fuel bin up).map
          (refineCand sqrtf P isSpectrum rate windowSize)) bp bd bv := by
  intro fuel
  induction fuel with
  | zero =>
    intro bin up bp bd bv
    simp only [findPeakLoop, peakCandAux, List.map_nil, selectPeak]
  | succ n ih =>
    intro bin up bp bd bv
    simp only [findPeakLoop, peakCandAux]
    by_cases hup : lgetI P bin > lgetI P (bin - 1)
    · rw [if_pos hup, if_pos hup]
      exact ih (bin + 1) true bp bd bv
    · rw [if_neg hup, if_neg hup]
      by_cases hu : up = true
      · rw [if_pos hu, if_pos hu]
        simp only [List.map_cons, selectPeak]
        by_cases hdist : |(refineCand sqrtf P isSpectrum rate windowSize bin).1 - xPos| < bd
        · rw [if_pos hdist, if_pos hdist]
          by_cases hover : (refineCand sqrtf P isSpectrum rate windowSize bin).1 > xPos
          · rw [if_pos hover, if_pos hover]
          · rw [if_neg hover, if_neg hover]
            exact ih (bin + 1) false _ _ _
        · rw [if_neg hdist, if_neg hdist]
          exact ih (bin + 1) false bp bd bv
      · rw [if_neg hu, if_neg hu]
        exact ih (bin + 1) false bp bd bv

/-- Claim C4 amended: `FindPeak` scans bins 3 to size-2 for
rising-to-falling transitions, refines each candidate by cubic maximization
and converts it to a frequency or lag position; a candidate is *kept* only
when its distance to the query improves on the running best distance, which
starts at 1000000 (candidates at distance 1000000 or more are ignored); the
scan stops early the first time a *kept* candidate's converted position
exceeds the query position; the result is the last kept candidate, or the
zero pair when none was kept (in particular when no local maximum exists). -/
theorem C4_findpeak_amended (sqrtf : ℚ → ℚ) (st : AnalystState) (xPos : ℚ) :
    FindPeak sqrtf st xPos =
      selectPeak xPos ((peakCandidates st.mProcessed (GetProcessedSize st : Int)).map
        (refineCand sqrtf st.mProcessed (decide (st.mAlg = 0)) st.mRate st.mWindowSize))
        0 1000000 0 := by
  unfold FindPeak peakCandidates
  by_cases h : ((GetProcessedSize st : Int) > 1)
  · rw [if_pos h, if_pos h]
    exact findPeakLoop_eq_selectPeak sqrtf st.mProcessed (decide (st.mAlg = 0)) st.mRate
      st.mWindowSize xPos ((GetProcessedSize st : Int) - 1 - 3).toNat 3
      (decide (lget st.mProcessed 1 > lget st.mProcessed 0)) 0 1000000 0
  · rw [if_neg h, if_neg h]
    simp only [List.map_nil]
    rw [selectPeak]

/-- Stored curve for the C4 counterexample: the cubic
4x^3 - 21x^2 + 18x + 20 (local maximum at x = 1/2, discriminant 900)
sampled at indices 1..4, preceded by a rise and followed by a strict
descent; 16 meaningful bins, full list length 32. -/
def pCurve : List ℚ :=
  [0, 20, 21, 4, -7, -8, -9, -10, -11, -12, -13, -14, -15, -16, -17, -18]

/-- Stored state for the C4 counterexample: lag mode (Autocorrelation),
rate 1, so converted candidate positions are curve indices. -/
def pState : AnalystState := ⟨pCurve ++ List.replicate 16 0, 1, 32, 1⟩

/-- Claim C4, counterexample: the curve has exactly one local maximum,
refined to position 3/2 (value 97/4), and the query position is -2000000.
The candidate's converted position exceeds the query position, so by the
claim the scan stops at it and returns it — the nearest (indeed only)
candidate up to and including the first overshoot, as `findPeakClaim`
computes.  The code instead ignores the candidate entirely, because its
distance 2000001.5 is not below the initial best distance 1000000, and
returns the zero pair. -/
theorem C4_counterexample :
    FindPeak sqrtQ pState (-2000000) = (0, 0) ∧
    findPeakClaim sqrtQ pState (-2000000) = (3 / 2, 97 / 4) ∧
    sqrtQ (cubicDisc 20 21 4 (-7)) * sqrtQ (cubicDisc 20 21 4 (-7)) =
      cubicDisc 20 21 4 (-7) ∧
    0 ≤ sqrtQ (cubicDisc 20 21 4 (-7)) ∧
    ((0 : ℚ), (0 : ℚ)) ≠ ((3 / 2 : ℚ), (97 / 4 : ℚ)) := by
  have hsz : GetProcessedSize pState = 16 := by simp [GetProcessedSize, pState, pCurve]
  have hdec0 : (decide (pState.mAlg = 0)) = false := by simp [pState]
  have hg1 : lget pState.mProcessed 1 = 20 := rfl
  have hg0 : lget pState.mProcessed 0 = 0 := rfl
  have hup : (decide (lget pState.mProcessed 1 > lget pState.mProcessed 0)) = true := by
    rw [hg1, hg0]
    simp only [decide_eq_true_eq]
    norm_num
  have hv1 : lgetI pState.mProcessed 1 = 20 := rfl
  have hv2 : lgetI pState.mProcessed 2 = 21 := rfl
  have hv3 : lgetI pState.mProcessed 3 = 4 := rfl
  have hv4 : lgetI pState.mProcessed 4 = -7 := rfl
  have hv5 : lgetI pState.mProcessed 5 = -8 := rfl
  have hv6 : lgetI pState.mProcessed 6 = -9 := rfl
  have hv7 : lgetI pState.mProcessed 7 = -10 := rfl
  have hv8 : lgetI pState.mProcessed 8 = -11 := rfl
  have hv9 : lgetI pState.mProcessed 9 = -12 := rfl
  have hv10 : lgetI pState.mProcessed 10 = -13 := rfl
  have hv11 : lgetI pState.mProcessed 11 = -14 := rfl
  have hv12 : lgetI pState.mProcessed 12 = -15 := rfl
  have hv13 : lgetI pState.mProcessed 13 = -16 := rfl
  have hv14 : lgetI pState.mProcessed 14 = -17 := rfl
  have hcand : peakCandAux pState.mProcessed 12 3 true = [3] := by
    norm_num [peakCandAux, hv1, hv2, hv3, hv4, hv5, hv6, hv7, hv8, hv9, hv10, hv11,
      hv12, hv13, hv14]
  have hCM : CubicMaximize sqrtQ 20 21 4 (-7) = (1 / 2, some (97 / 4)) := by
    norm_num [CubicMaximize, sqrtQ, cubicCoeffA, cubicCoeffB, cubicCoeffC]
  have hmap : refineCand sqrtQ pState.mProcessed false 1 32 3 = (3 / 2, 97 / 4) := by
    unfold refineCand
    norm_num [hv1, hv2, hv3, hv4, hCM]
  have hrate : pState.mRate = 1 := rfl
  have hws : pState.mWindowSize = 32 := rfl
  have hfuel : (((16 : ℕ) : ℤ) - 1 - 3).toNat = 12 := rfl
  have habs : |(3 / 2 : ℚ) - (-2000000)| = 4000003 / 2 := by
    rw [abs_of_nonneg (by norm_num)]
    norm_num
  refine ⟨?_, ?_, ?_, ?_, by intro h; exact absurd (congrArg Prod.fst h) (by norm_num)⟩
  · simp only [FindPeak]
    rw [hsz, hdec0, hup, hrate, hws, if_pos (show ((16 : ℕ) : ℤ) > 1 by norm_num),
      hfuel, findPeakLoop_eq_selectPeak, hcand]
    simp only [List.map_cons, List.map_nil]
    rw [hmap]
    norm_num [selectPeak, habs, abs_of_nonneg]
  · simp only [findPeakClaim, peakCandidates]
    rw [hsz, hdec0, hup, hrate, hws, if_pos (show ((16 : ℕ) : ℤ) > 1 by norm_num),
      hfuel, hcand]
    simp only [List.map_cons, List.map_nil]
    rw [hmap]
    norm_num [takeUntilOvershoot]
  · have hd : cubicDisc 20 21 4 (-7) = 900 := by
      norm_num [cubicDisc, cubicCoeffA, cubicCoeffB, cubicCoeffC]
    rw [hd]
    norm_num [sqrtQ]
  · have hd : cubicDisc 20 21 4 (-7) = 900 := by
      norm_num [cubicDisc, cubicCoeffA, cubicCoeffB, cubicCoeffC]
    rw [hd]
    norm_num [sqrtQ]

/-- Witness for C7: a concrete successful Cepstrum call. -/
theorem C7_cepstrum_post_witness :
    (∀ fr : List ℚ, transformOf flatKernels 4 32 fr =
      flatKernels.irfft (cepstrumLogList flatKernels 32 fr)) ∧
    (Calculate flatKernels initialState 4 0 32 1
      (List.replicate 32 0)).state.mProcessed.length = 32 ∧
    (Calculate flatKernels initialState 4 0 32 1 (List.replicate 32 0)).yRange =
      some (listMinD (((Calculate flatKernels initialState 4 0 32 1
            (List.replicate 32 0)).state.mProcessed.drop 4).take (32 / 2 - 8)),
        listMaxD (((Calculate flatKernels initialState 4 0 32 1
            (List.replicate 32 0)).state.mProcessed.drop 4).take (32 / 2 - 8))) := by
  have h := C7_cepstrum_post flatKernels initialState 0 32 1 (List.replicate 32 0)
    (by norm_num) (by norm_num) (by norm_num) (by norm_num [flatKernels]) (by simp)
  exact ⟨h.1, h.2.2.1, h.2.2.2.2⟩
